import Mathlib

/-!
Verification development for the Traktrain downloader content script.
The definitions below are a shallow embedding of the extraction pipeline
implemented in the content script (message handler, single-track and
profile extraction, locator cascades, URL/artist helpers, filename
sanitizer).  HTML pages are modelled as a record of the raw HTML string
together with the DOM projections the script queries (title, script
bodies, audio sources, data-player-info attribute values, h1, meta).
-/

namespace Traktrain

/-- The JavaScript whitespace class used by the regexes and by trim. -/
def jsWs (c : Char) : Bool :=
  c = ' ' || c = '\t' || c = '\n' || c = '\x0b' || c = '\x0c' || c = '\r' ||
  c = '\u00a0' || c = '\u1680' || (0x2000 ≤ c.toNat && c.toNat ≤ 0x200a) ||
  c = '\u2028' || c = '\u2029' || c = '\u202f' || c = '\u205f' || c = '\u3000' ||
  c = '\ufeff'

/-- The character set removed by the filename sanitizer. -/
def isBadChar (c : Char) : Bool :=
  c = '<' || c = '>' || c = ':' || c = '\x22' || c = '/' || c = '\\' ||
  c = '|' || c = '?' || c = '*'

/-- Collapse every run of whitespace to a single space character. -/
def collapseWs : List Char → List Char
  | [] => []
  | [c] => [if jsWs c then ' ' else c]
  | a :: b :: t =>
    if jsWs a && jsWs b then collapseWs (b :: t)
    else (if jsWs a then ' ' else a) :: collapseWs (b :: t)

/-- Remove a trailing run of whitespace. -/
def trimRightChars : List Char → List Char
  | [] => []
  | c :: rest =>
    match trimRightChars rest with
    | [] => if jsWs c then [] else [c]
    | r => c :: r

/-- JavaScript String.prototype.trim on a character list. -/
def trimChars (l : List Char) : List Char :=
  trimRightChars (l.dropWhile jsWs)

/-- JavaScript String.prototype.trim (whitespace at both ends removed). -/
def trimJs (s : String) : String :=
  String.mk (trimChars s.data)

/-- The sanitizer pipeline on character lists: remove the invalid
characters, collapse whitespace runs, trim the ends. -/
def sanitizeChars (l : List Char) : List Char :=
  trimChars (collapseWs (l.filter (fun c => !isBadChar c)))

/-- sanitizeFilename from the content script: remove the characters
in the invalid set, replace whitespace runs with one space, trim. -/
def sanitizeFilename (s : String) : String :=
  String.mk (sanitizeChars s.data)

/-- JSON values as produced by the host JSON.parse.  Numbers keep the
raw numeral text of the literal; no claim depends on numeric
reformatting, which floating point would otherwise make unfaithful. -/
inductive Json where
  | null
  | bool (b : Bool)
  | num (raw : String)
  | str (s : String)
  | arr (elems : List Json)
  | obj (fields : List (String × Json))
deriving Repr

/-- Later bindings of a duplicated key win, as in JSON.parse. -/
def lastFieldLookup (k : String) : List (String × Json) → Option Json
  | [] => none
  | (k2, v) :: t =>
    match lastFieldLookup k t with
    | some r => some r
    | none => if k2 = k then some v else none

/-- Property access on a parsed JSON value: a field of an object,
undefined (none) on every non-object. -/
def Json.getField : Json → String → Option Json
  | Json.obj fs, k => lastFieldLookup k fs
  | _, _ => none

/-- Whether a JSON numeral denotes zero (all mantissa digits are 0). -/
def numIsZero (raw : String) : Bool :=
  (raw.data.takeWhile (fun c => c ≠ 'e' && c ≠ 'E')).all
    (fun c => !c.isDigit || c = '0')

/-- JavaScript truthiness of a parsed JSON value. -/
def Json.truthy : Json → Bool
  | Json.null => false
  | Json.bool b => b
  | Json.num r => !numIsZero r
  | Json.str s => s ≠ ""
  | Json.arr _ => true
  | Json.obj _ => true

/-- Truthiness of a possibly-undefined value. -/
def truthyO : Option Json → Bool
  | none => false
  | some j => j.truthy

mutual
/-- JavaScript String() coercion of a parsed JSON value (numerals kept
verbatim). -/
def jsToString : Json → String
  | Json.null => "null"
  | Json.bool true => "true"
  | Json.bool false => "false"
  | Json.num r => r
  | Json.str s => s
  | Json.arr l => String.intercalate "," (jsArrParts l)
  | Json.obj _ => "[object Object]"

/-- Elements of an array under String(): null becomes empty. -/
def jsArrParts : List Json → List String
  | [] => []
  | Json.null :: t => "" :: jsArrParts t
  | v :: t => jsToString v :: jsArrParts t
end

/-- Coerce an optional JSON value to a string the way string
concatenation does (undefined prints as "undefined"). -/
def jsToStringO : Option Json → String
  | none => "undefined"
  | some j => jsToString j

/-- JSON whitespace accepted by JSON.parse. -/
def skipJWs (l : List Char) : List Char :=
  l.dropWhile (fun c => c = ' ' || c = '\t' || c = '\n' || c = '\r')

/-- Hexadecimal digit value. -/
def hexDigit (c : Char) : Option Nat :=
  if '0' ≤ c && c ≤ '9' then some (c.toNat - 48)
  else if 'a' ≤ c && c ≤ 'f' then some (c.toNat - 87)
  else if 'A' ≤ c && c ≤ 'F' then some (c.toNat - 55)
  else none

/-- JSON string body parser (called after the opening quote). -/
def parseJStr : Nat → List Char → List Char → Option (String × List Char)
  | 0, _, _ => none
  | fuel+1, l, acc =>
    match l with
    | [] => none
    | c :: rest =>
      if c = '\x22' then some (String.mk acc.reverse, rest)
      else if c = '\\' then
        match rest with
        | [] => none
        | e :: r2 =>
          if e = '\x22' then parseJStr fuel r2 ('\x22' :: acc)
          else if e = '\\' then parseJStr fuel r2 ('\\' :: acc)
          else if e = '/' then parseJStr fuel r2 ('/' :: acc)
          else if e = 'b' then parseJStr fuel r2 ('\x08' :: acc)
          else if e = 'f' then parseJStr fuel r2 ('\x0c' :: acc)
          else if e = 'n' then parseJStr fuel r2 ('\n' :: acc)
          else if e = 'r' then parseJStr fuel r2 ('\r' :: acc)
          else if e = 't' then parseJStr fuel r2 ('\t' :: acc)
          else if e = 'u' then
            match r2 with
            | h1 :: h2 :: h3 :: h4 :: r3 =>
              match hexDigit h1, hexDigit h2, hexDigit h3, hexDigit h4 with
              | some a, some b, some c2, some d =>
                parseJStr fuel r3 (Char.ofNat (a*4096 + b*256 + c2*16 + d) :: acc)
              | _, _, _, _ => none
            | _ => none
          else none
      else if c.toNat < 32 then none
      else parseJStr fuel rest (c :: acc)

/-- JSON number parser keeping the raw numeral text. -/
def parseNum (l : List Char) : Option (String × List Char) :=
  let sl : List Char × List Char :=
    match l with
    | c :: r => if c = '-' then ([c], r) else ([], l)
    | [] => ([], l)
  let sign := sl.1
  let l1 := sl.2
  let intPart := l1.takeWhile Char.isDigit
  if intPart = [] then none
  else if 1 < intPart.length && intPart.headD 'x' = '0' then none
  else
    let l2 := l1.drop intPart.length
    let fracRes : Option (List Char × List Char) :=
      match l2 with
      | c :: r =>
        if c = '.' then
          let ds := r.takeWhile Char.isDigit
          if ds = [] then none else some ('.' :: ds, r.drop ds.length)
        else some ([], l2)
      | [] => some ([], l2)
    match fracRes with
    | none => none
    | some (frac, l3) =>
      let expRes : Option (List Char × List Char) :=
        match l3 with
        | c :: r =>
          if c = 'e' || c = 'E' then
            let sr : List Char × List Char :=
              match r with
              | s2 :: r2 => if s2 = '+' || s2 = '-' then ([s2], r2) else ([], r)
              | [] => ([], r)
            let ds := sr.2.takeWhile Char.isDigit
            if ds = [] then none
            else some (c :: (sr.1 ++ ds), sr.2.drop ds.length)
          else some ([], l3)
        | [] => some ([], l3)
      match expRes with
      | none => none
      | some (ex, l4) => some (String.mk (sign ++ intPart ++ frac ++ ex), l4)

mutual
/-- Recursive-descent JSON value parser (fuel-bounded, fuel is
always sufficient when set to the input length plus one). -/
def parseVal : Nat → List Char → Option (Json × List Char)
  | 0, _ => none
  | fuel+1, l =>
    let l1 := skipJWs l
    match l1 with
    | [] => none
    | c :: rest =>
      if c = '\x7b' then parseObjItems fuel rest true []
      else if c = '[' then parseArrItems fuel rest true []
      else if c = '\x22' then
        match parseJStr (rest.length + 1) rest [] with
        | some (s, r) => some (Json.str s, r)
        | none => none
      else if c = 't' then
        match rest with
        | 'r' :: 'u' :: 'e' :: r => some (Json.bool true, r)
        | _ => none
      else if c = 'f' then
        match rest with
        | 'a' :: 'l' :: 's' :: 'e' :: r => some (Json.bool false, r)
        | _ => none
      else if c = 'n' then
        match rest with
        | 'u' :: 'l' :: 'l' :: r => some (Json.null, r)
        | _ => none
      else
        match parseNum l1 with
        | some (s, r) => some (Json.num s, r)
        | none => none

/-- Array items (called after the opening bracket or a comma). -/
def parseArrItems : Nat → List Char → Bool → List Json → Option (Json × List Char)
  | 0, _, _, _ => none
  | fuel+1, l, first, acc =>
    let l1 := skipJWs l
    match l1 with
    | [] => none
    | c :: rest =>
      if c = ']' then (if first then some (Json.arr [], rest) else none)
      else
        match parseVal fuel l1 with
        | none => none
        | some (v, r) =>
          let r1 := skipJWs r
          match r1 with
          | ',' :: r2 => parseArrItems fuel r2 false (v :: acc)
          | ']' :: r2 => some (Json.arr (v :: acc).reverse, r2)
          | _ => none

/-- Object members (called after the opening brace or a comma). -/
def parseObjItems : Nat → List Char → Bool → List (String × Json) →
    Option (Json × List Char)
  | 0, _, _, _ => none
  | fuel+1, l, first, acc =>
    let l1 := skipJWs l
    match l1 with
    | [] => none
    | c :: rest =>
      if c = '\x7d' then (if first then some (Json.obj [], rest) else none)
      else if c = '\x22' then
        match parseJStr (rest.length + 1) rest [] with
        | none => none
        | some (k, r) =>
          match skipJWs r with
          | ':' :: r2 =>
            match parseVal fuel r2 with
            | none => none
            | some (v, r3) =>
              match skipJWs r3 with
              | ',' :: r5 => parseObjItems fuel r5 false ((k, v) :: acc)
              | c2 :: r5 =>
                if c2 = '\x7d' then some (Json.obj ((k, v) :: acc).reverse, r5)
                else none
              | [] => none
          | _ => none
      else none
end

/-- The host JSON.parse: a strict JSON document parser returning none
where JSON.parse throws. -/
def jsonParse (s : String) : Option Json :=
  match parseVal (s.data.length + 1) s.data with
  | none => none
  | some (v, rest) => if skipJWs rest = [] then some v else none

/-- Match a literal at the head of the input, returning the rest. -/
def stripLit : List Char → List Char → Option (List Char)
  | [], l => some l
  | _ :: _, [] => none
  | p :: ps, d :: l => if p = d then stripLit ps l else none

/-- First position (leftmost) where the matcher succeeds, as in an
unanchored regular-expression search. -/
def scanFirst {α : Type} (m : List Char → Option α) : List Char → Option α
  | [] => m []
  | c :: rest =>
    match m (c :: rest) with
    | some a => some a
    | none => scanFirst m rest

/-- Index of the first occurrence of a literal substring. -/
def findSubIdx (needle : List Char) : List Char → Option Nat
  | [] => if (stripLit needle []).isSome then some 0 else none
  | c :: rest =>
    if (stripLit needle (c :: rest)).isSome then some 0
    else (findSubIdx needle rest).map (· + 1)

/-- JavaScript String.prototype.includes. -/
def jsIncludes (s sub : String) : Bool :=
  (findSubIdx sub.data s.data).isSome

/-- JavaScript s.replace(target, empty string): remove the first
occurrence of the target, if any. -/
def jsReplaceFirst (s target : String) : String :=
  match findSubIdx target.data s.data with
  | none => s
  | some i => String.mk (s.data.take i ++ s.data.drop (i + target.data.length))

/-- JavaScript String.prototype.split with a non-empty separator. -/
def jsSplitAux (sep : List Char) : Nat → List Char → List String
  | 0, l => [String.mk l]
  | fuel+1, l =>
    match findSubIdx sep l with
    | none => [String.mk l]
    | some i => String.mk (l.take i) :: jsSplitAux sep fuel (l.drop (i + sep.length))

/-- JavaScript s.split(sep). -/
def jsSplit (s sep : String) : List String :=
  jsSplitAux sep.data (s.data.length + 1) s.data

/-- Modelled from the platform: the WHATWG URL parser (new URL), which
the script uses for its pathname, restricted to scheme://host/path
shaped absolute URLs; none models the thrown TypeError. -/
def parseUrlPathname (url : String) : Option String :=
  let l := url.data
  let scheme := l.takeWhile (fun c => c.isAlpha)
  if scheme = [] then none
  else
    match stripLit (scheme ++ [':', '/', '/']) l with
    | none => none
    | some rest =>
      let auth := rest.takeWhile (fun c => c ≠ '/' && c ≠ '?' && c ≠ '#')
      if auth = [] then none
      else
        let rest2 := rest.drop auth.length
        match rest2 with
        | [] => some "/"
        | c :: _ =>
          if c = '/' then
            some (String.mk (rest2.takeWhile (fun c2 => c2 ≠ '?' && c2 ≠ '#')))
          else some "/"

/-- A string is a syntactically valid absolute URL when the URL parser
accepts it. -/
def isAbsoluteUrl (s : String) : Bool :=
  (parseUrlPathname s).isSome

/-- extractArtistFromUrl from the content script: first non-empty path
segment of the parsed URL, null when parsing fails or the path is bare. -/
def extractArtistFromUrl (url : String) : Option String :=
  match parseUrlPathname url with
  | none => none
  | some path =>
    match (jsSplit path "/").filter (fun p => p ≠ "") with
    | [] => none
    | p :: _ => some p

/-- Quote characters accepted by the attribute regexes. -/
def quoteChar (c : Char) : Bool := c = '\x27' || c = '\x22'

/-- Quoted capture of the attribute regexes: either quote opens, the
capture is one-or-more characters that are neither quote, either quote
closes.  Returns the capture and the rest after the closing quote. -/
def matchQuotedCapture (l : List Char) : Option (String × List Char) :=
  match l with
  | q :: rest =>
    if quoteChar q then
      let cap := rest.takeWhile (fun c => !quoteChar c)
      match rest.drop cap.length with
      | _ :: r3 => if cap = [] then none else some (String.mk cap, r3)
      | [] => none
    else none
  | [] => none

/-- Anchored matcher for the AWS_BASE_URL assignment regex. -/
def matchAwsAt (l : List Char) : Option String :=
  match stripLit ("var AWS_BASE_URL").data l with
  | none => none
  | some r1 =>
    match r1.dropWhile jsWs with
    | '=' :: r3 => (matchQuotedCapture (r3.dropWhile jsWs)).map (fun x => x.1)
    | _ => none

/-- extractAwsBaseUrl from the content script. -/
def extractAwsBaseUrl (html : String) : Option String :=
  scanFirst matchAwsAt html.data

/-- Anchored matcher for the data-player-info attribute regex. -/
def matchDPIAt (l : List Char) : Option (String × List Char) :=
  match stripLit ("data-player-info=").data l with
  | none => none
  | some r1 => matchQuotedCapture r1

/-- First capture of the data-player-info regex over the raw HTML. -/
def extractTrackInfoCapture (html : String) : Option String :=
  (scanFirst matchDPIAt html.data).map (fun x => x.1)

/-- The intermediate descriptor produced by the single-track locator
strategies: the name as the JSON value the strategy yielded, the src
possibly absent (undefined). -/
structure TrackInfo where
  name : Json
  src : Option Json
deriving Repr

/-- extractTrackInfo from the content script: first data-player-info
capture, JSON-parsed; name defaults to "Unknown Track" when falsy,
src is passed through even when absent; parse failures and the
property-access TypeError on null are caught and give none. -/
def extractTrackInfo (html : String) : Option TrackInfo :=
  match extractTrackInfoCapture html with
  | none => none
  | some cap =>
    match jsonParse cap with
    | none => none
    | some Json.null => none
    | some d =>
      let nm := match d.getField "name" with
        | some v => if v.truthy then v else Json.str "Unknown Track"
        | none => Json.str "Unknown Track"
      some { name := nm, src := d.getField "src" }

/-- Anchored matcher for a quoted key-value pair in a script body. -/
def matchKeyValAt (key : String) (l : List Char) : Option (String × List Char) :=
  match stripLit ('\x22' :: (key.data ++ ['\x22'])) l with
  | none => none
  | some r1 =>
    match r1.dropWhile jsWs with
    | ':' :: r2 =>
      match r2.dropWhile jsWs with
      | q :: r3 =>
        if q = '\x22' then
          let cap := r3.takeWhile (fun c => c ≠ '\x22')
          match r3.drop cap.length with
          | _ :: r4 => if cap = [] then none else some (String.mk cap, r4)
          | [] => none
        else none
      | [] => none
    | _ => none

/-- Anchored matcher for the paired name-like/src-like regexes of the
single-track script scan: lazily bridge from the first pair to the
earliest following second pair. -/
def matchKeyPairAt (k1 k2 : String) (l : List Char) : Option TrackInfo :=
  match matchKeyValAt k1 l with
  | none => none
  | some (v1, r1) =>
    match scanFirst (matchKeyValAt k2) r1 with
    | none => none
    | some (v2, _) => some { name := Json.str v1, src := some (Json.str v2) }

/-- One paired pattern searched over a whole script body. -/
def matchNameSrcPattern (k1 k2 : String) (content : String) : Option TrackInfo :=
  scanFirst (matchKeyPairAt k1 k2) content.data

/-- Anchored matcher for the window.track assignment pattern. -/
def matchWindowTrackAt (l : List Char) : Option TrackInfo :=
  match stripLit ("window.track").data l with
  | none => none
  | some r1 =>
    match r1.dropWhile jsWs with
    | '=' :: r2 =>
      match r2.dropWhile jsWs with
      | c :: r3 =>
        if c = '\x7b' then
          match scanFirst (matchKeyValAt "name") r3 with
          | none => none
          | some (v1, r4) =>
            match scanFirst (matchKeyValAt "src") r4 with
            | none => none
            | some (v2, _) => some { name := Json.str v1, src := some (Json.str v2) }
        else none
      | [] => none
    | _ => none

/-- Method 2 of the single-track cascade, one script body: the four
track patterns tried in order. -/
def findTrackInScript (content : String) : Option TrackInfo :=
  match matchNameSrcPattern "name" "src" content with
  | some t => some t
  | none =>
    match matchNameSrcPattern "title" "url" content with
    | some t => some t
    | none =>
      match matchNameSrcPattern "trackName" "trackSrc" content with
      | some t => some t
      | none => scanFirst matchWindowTrackAt content.data

/-- Method 2 of the single-track cascade: scripts in document order,
empty bodies skipped, first hit wins. -/
def findTrackInScripts : List String → Option TrackInfo
  | [] => none
  | c :: rest =>
    if c = "" then findTrackInScripts rest
    else
      match findTrackInScript c with
      | some t => some t
      | none => findTrackInScripts rest

/-- The dot character class of the title-splitting regex (no /s flag):
everything but the line terminators. -/
def dotChar (c : Char) : Bool :=
  !(c = '\n' || c = '\r' || c = '\u2028' || c = '\u2029')

/-- The dash alternatives of the title-splitting regex. -/
def dashChar (c : Char) : Bool := c = '-' || c = '\u2013' || c = '\u2014'

/-- Match the second group of the title regex after the dash:
greedy whitespace, then one-or-more dot-class characters, backing off
into the whitespace when everything after the dash is whitespace. -/
def matchG2 (rem : List Char) : Option (List Char) :=
  match rem.dropWhile jsWs with
  | c :: rest => some (c :: rest.takeWhile dotChar)
  | [] =>
    match rem.reverse.find? dotChar with
    | some c => some [c]
    | none => none

/-- Match the tail of the title regex after the first group: optional
whitespace, a dash, then the second group. -/
def matchDashTail (l : List Char) : Option (List Char) :=
  match l.dropWhile jsWs with
  | d :: rest => if dashChar d then matchG2 rest else none
  | [] => none

/-- Grow the lazy first group of the title regex one character at a
time until the dash tail matches. -/
def g1Loop : List Char → List Char → Option (List Char × List Char)
  | accRev, [] =>
    match matchDashTail [] with
    | some g2 => some (accRev.reverse, g2)
    | none => none
  | accRev, c :: rest =>
    match matchDashTail (c :: rest) with
    | some g2 => some (accRev.reverse, g2)
    | none => if dotChar c then g1Loop (c :: accRev) rest else none

/-- Anchored matcher for the title regex at one start position. -/
def titleAt (l : List Char) : Option (List Char × List Char) :=
  match l with
  | c :: rest => if dotChar c then g1Loop [c] rest else none
  | [] => none

/-- The title-splitting regex of the content script, returning the two
captured groups. -/
def titleMatch (s : String) : Option (String × String) :=
  (scanFirst titleAt s.data).map (fun x => (String.mk x.1, String.mk x.2))

/-- Method 3 candidate name: first title segment trimmed, else first
heading text trimmed, else null. -/
def method3Name (title : String) (h1 : Option String) : Option String :=
  match titleMatch title with
  | some (g1, _) => some (trimJs g1)
  | none =>
    match h1 with
    | some t => some (trimJs t)
    | none => none

/-- Method 3 audio scan: first audio-bearing source string that is
truthy, contains ".mp3" and changes when the first occurrence of the
base URL is removed. -/
def method3Audio (base : String) : List String → Option String
  | [] => none
  | s :: rest =>
    if s ≠ "" && jsIncludes s ".mp3" then
      let p := jsReplaceFirst s base
      if p ≠ s then some p else method3Audio base rest
    else method3Audio base rest

/-- Method 3 of the single-track cascade. -/
def method3Single (title : String) (h1 : Option String) (base : String)
    (srcs : List String) : Option TrackInfo :=
  match method3Audio base srcs with
  | none => none
  | some p =>
    let nm := match method3Name title h1 with
      | some n => if n = "" then "Unknown Track" else n
      | none => "Unknown Track"
    some { name := Json.str nm, src := some (Json.str p) }

/-- Anchored matcher for the /t/(digits) track-id regex. -/
def matchTrackIdAt (l : List Char) : Option String :=
  match stripLit ("/t/").data l with
  | none => none
  | some r =>
    let ds := r.takeWhile Char.isDigit
    if ds = [] then none else some (String.mk ds)

/-- First /t/(digits) capture in a URL. -/
def matchTrackId (url : String) : Option String :=
  scanFirst matchTrackIdAt url.data

/-- The character class of the mp3-URL regex: not a quote, not
whitespace. -/
def urlChar (c : Char) : Bool := !(c = '\x22' || c = '\x27' || jsWs c)

/-- Longest match length for one-or-more class characters followed by
".mp3", searched greedily from the full run downward. -/
def bestMp3Len : Nat → List Char → Option Nat
  | 0, _ => none
  | k+1, run =>
    if 5 ≤ k+1 && (run.take (k+1)).drop (k+1-4) = (".mp3").data then some (k+1)
    else bestMp3Len k run

/-- Anchored matcher for the absolute mp3-URL regex. -/
def matchMp3At (l : List Char) : Option String :=
  match stripLit ("http").data l with
  | none => none
  | some r1 =>
    let afterScheme : Option (String × List Char) :=
      match stripLit ("s://").data r1 with
      | some r2 => some ("https://", r2)
      | none =>
        match stripLit ("://").data r1 with
        | some r2 => some ("http://", r2)
        | none => none
    match afterScheme with
    | none => none
    | some (pre, r2) =>
      let run := r2.takeWhile urlChar
      match bestMp3Len run.length run with
      | none => none
      | some k => some (pre ++ String.mk (run.take k))

/-- First absolute mp3 URL in the raw HTML. -/
def firstMp3Url (html : String) : Option String :=
  scanFirst matchMp3At html.data

/-- Method 4 of the single-track cascade: URL-structure inference. -/
def method4Single (realUrl title html base : String) : Option TrackInfo :=
  match matchTrackId realUrl with
  | none => none
  | some tid =>
    match firstMp3Url html with
    | none => none
    | some mp3 =>
      let srcPath := jsReplaceFirst mp3 base
      let h := match jsSplit title " - " with
        | [] => ""
        | x :: _ => x
      let nm := if h = "" then "Track " ++ tid else h
      some { name := Json.str nm, src := some (Json.str srcPath) }

/-- A discovered track record. -/
structure Track where
  name : String
  url : String
  artist : String
deriving Repr, DecidableEq

/-- The success payload of an extraction. -/
structure ExtractData where
  tracks : List Track
  artist : String
  createArtistFolder : Bool
deriving Repr, DecidableEq

/-- The page snapshot the content script reads: the raw HTML together
with the DOM projections it queries. -/
structure Page where
  html : String
  title : String
  metaArtist : Option String
  h1 : Option String
  scripts : List String
  audioSrcs : List String
  playerInfoAttrs : List String
deriving Repr

/-- The artist fallback chain of extractSingleBeat: URL handle unless
missing or the short-link segment "t", then title second segment,
then meta tag content, then "Unknown Artist". -/
def singleArtist (realUrl : String) (page : Page) : String :=
  let a0 := extractArtistFromUrl realUrl
  if a0 = none || a0 = some "t" then
    let a1 : String :=
      match titleMatch page.title with
      | some (_, g2) => trimJs g2
      | none =>
        match a0 with
        | some a => a
        | none => ""
    let a2 := if a1 = "" then
        (match page.metaArtist with
         | some c => c
         | none => "")
      else a1
    if a2 = "" then "Unknown Artist" else a2
  else
    match a0 with
    | some a => a
    | none => "Unknown Artist"

def redirectErrMsg : String := "Could not resolve short URL"

def awsErrSingle : String :=
  "Could not find AWS base URL on the page. Make sure you are on a Traktrain track page."

def awsErrProfile : String :=
  "Could not find AWS base URL on the page. Make sure you are on a Traktrain page."

def artistErrMsg : String := "Could not extract artist name from URL"

def trackNotFoundMsg : String :=
  "Could not extract track information from the page. This might be a different type of Traktrain page or the page structure has changed."

def nameTypeErrMsg : String := "trackInfo.name.replace is not a function"

/-- extractSingleBeat from the content script.  The redirect follower
is an oracle for the network fetch: none models a transport error. -/
def extractSingleBeat (url : String) (redirect : String → Option String)
    (page : Page) (createArtistFolder : Bool) : Except String ExtractData :=
  match (if jsIncludes url "traktra.in/t/" then redirect url else some url) with
  | none => Except.error redirectErrMsg
  | some realUrl =>
    let artist := singleArtist realUrl page
    match extractAwsBaseUrl page.html with
    | none => Except.error awsErrSingle
    | some awsBaseUrl =>
      let m1 := extractTrackInfo page.html
      let m2 := match m1 with
        | some t => some t
        | none => findTrackInScripts page.scripts
      let m3 := match m2 with
        | some t => some t
        | none => method3Single page.title page.h1 awsBaseUrl page.audioSrcs
      let m4 := match m3 with
        | some t => some t
        | none => method4Single realUrl page.title page.html awsBaseUrl
      match m4 with
      | none => Except.error trackNotFoundMsg
      | some info =>
        let downloadUrl := awsBaseUrl ++ jsToStringO info.src
        match info.name with
        | Json.str n =>
          Except.ok { tracks := [{ name := sanitizeFilename n, url := downloadUrl,
                                   artist := artist }],
                      artist := artist, createArtistFolder := createArtistFolder }
        | _ => Except.error nameTypeErrMsg

/-- Build one pushed track record. -/
def mkTrack (base artist : String) (n : String) (src : Json) : Track :=
  { name := sanitizeFilename n, url := base ++ jsToString src, artist := artist }

/-- Parse one data-player-info payload and accept it when src and name
are truthy and the name is a string; every failure (parse error, the
TypeError on null, the TypeError of sanitizing a non-string) is caught
and skips the element. -/
def trackFromJsonStr (base artist : String) (s : String) : Option Track :=
  match jsonParse s with
  | none => none
  | some Json.null => none
  | some d =>
    match d.getField "src" with
    | none => none
    | some src =>
      if !src.truthy then none
      else
        match d.getField "name" with
        | none => none
        | some nm =>
          if !nm.truthy then none
          else
            match nm with
            | Json.str n => some (mkTrack base artist n src)
            | _ => none

/-- Method 1 of the profile cascade: per-element attribute scan in
document order, skipping empty attributes and unparsable payloads. -/
def profileMethod1 (base artist : String) : List String → List Track
  | [] => []
  | a :: rest =>
    if a = "" then profileMethod1 base artist rest
    else
      match trackFromJsonStr base artist a with
      | some t => t :: profileMethod1 base artist rest
      | none => profileMethod1 base artist rest

/-- Minimal index j with l[j] = a and l[j+1] = b. -/
def findPairIdx (a b : Char) : List Char → Option Nat
  | x :: y :: t =>
    if x = a && y = b then some 0 else (findPairIdx a b (y :: t)).map (· + 1)
  | _ => none

/-- Anchored matcher for a hydration-state assignment pattern: the
literal, optional whitespace, an equals sign, optional whitespace, a
lazily captured brace group terminated by a brace-semicolon. -/
def matchStateAt (varLit : List Char) (l : List Char) : Option String :=
  match stripLit varLit l with
  | none => none
  | some r1 =>
    match r1.dropWhile jsWs with
    | '=' :: r2 =>
      match r2.dropWhile jsWs with
      | c :: r3 =>
        if c = '\x7b' then
          match findPairIdx '\x7d' ';' (r3.drop 1) with
          | none => none
          | some j0 => some (String.mk ('\x7b' :: (r3.take (j0 + 1) ++ ['\x7d'])))
        else none
      | [] => none
    | _ => none

/-- Anchored matcher for a quoted-key array pattern: the literal, then
optional whitespace and a lazily captured bracket group. -/
def matchTracksArrAt (lit : List Char) (l : List Char) : Option String :=
  match stripLit lit l with
  | none => none
  | some r1 =>
    match r1.dropWhile jsWs with
    | c :: r2 =>
      if c = '[' then
        match (r2.drop 1).findIdx? (fun c2 => c2 = ']') with
        | none => none
        | some i => some (String.mk ('[' :: (r2.take (i + 1) ++ [']'])))
      else none
    | [] => none

/-- Anchored matcher for a var/const tracks assignment pattern: the
keyword, mandatory whitespace, the identifier, an equals sign, and a
lazily captured bracket group terminated by a bracket-semicolon. -/
def matchVarTracksAt (kw : List Char) (l : List Char) : Option String :=
  match stripLit kw l with
  | none => none
  | some r1 =>
    match r1 with
    | c0 :: _ =>
      if jsWs c0 then
        match stripLit ("tracks").data (r1.dropWhile jsWs) with
        | none => none
        | some r3 =>
          match r3.dropWhile jsWs with
          | '=' :: r4 =>
            match r4.dropWhile jsWs with
            | c :: r5 =>
              if c = '[' then
                match findPairIdx ']' ';' (r5.drop 1) with
                | none => none
                | some j0 => some (String.mk ('[' :: (r5.take (j0 + 1) ++ [']'])))
              else none
            | [] => none
          | _ => none
      else none
    | [] => none

/-- The ordered pattern list of the profile JavaScript-data scan. -/
def jsTrackPatterns : List (String → Option String) :=
  [ fun h => scanFirst (matchStateAt ("window.__INITIAL_STATE__").data) h.data,
    fun h => scanFirst (matchStateAt ("window.__PRELOADED_STATE__").data) h.data,
    fun h => scanFirst (matchTracksArrAt ("\x22tracks\x22:").data) h.data,
    fun h => scanFirst (matchTracksArrAt ("\x22beats\x22:").data) h.data,
    fun h => scanFirst (matchVarTracksAt ("var").data) h.data,
    fun h => scanFirst (matchVarTracksAt ("const").data) h.data ]

/-- Iterating a chosen candidate with for-of: arrays yield their
elements, strings yield their characters, anything else throws. -/
def iterCandidate : Json → Except Unit (List Json)
  | Json.arr l => Except.ok l
  | Json.str s => Except.ok (s.data.map (fun c => Json.str (String.mk [c])))
  | _ => Except.error ()

/-- Probe for the user.tracks field. -/
def chooseUser (d : Json) : Except Unit (List Json) :=
  match d.getField "user" with
  | some u =>
    if u.truthy then
      match u.getField "tracks" with
      | some ut => if ut.truthy then iterCandidate ut else Except.ok []
      | none => Except.ok []
    else Except.ok []
  | none => Except.ok []

/-- Probe for the beats field. -/
def chooseBeats (d : Json) : Except Unit (List Json) :=
  match d.getField "beats" with
  | some b => if b.truthy then iterCandidate b else chooseUser d
  | none => chooseUser d

/-- Probe for the tracks field. -/
def chooseTracksField (d : Json) : Except Unit (List Json) :=
  match d.getField "tracks" with
  | some t => if t.truthy then iterCandidate t else chooseBeats d
  | none => chooseBeats d

/-- The candidate probe of the profile JavaScript-data scan: the value
itself when it is an array, else the first truthy field among tracks,
beats, user.tracks; accessing fields of null throws. -/
def chooseCandidate : Json → Except Unit (List Json)
  | Json.null => Except.error ()
  | Json.arr l => Except.ok l
  | d => chooseTracksField d

/-- Push loop over a chosen candidate: tracks with truthy string name
and truthy src are pushed in order; a null element or a non-string
name throws, keeping the earlier pushes. -/
def pushLoop (base artist : String) : List Json → (List Track × Bool)
  | [] => ([], false)
  | t :: rest =>
    match t with
    | Json.null => ([], true)
    | _ =>
      match t.getField "src" with
      | none => pushLoop base artist rest
      | some src =>
        if !src.truthy then pushLoop base artist rest
        else
          match t.getField "name" with
          | none => pushLoop base artist rest
          | some nm =>
            if !nm.truthy then pushLoop base artist rest
            else
              match nm with
              | Json.str n =>
                let pr := pushLoop base artist rest
                (mkTrack base artist n src :: pr.1, pr.2)
              | _ => ([], true)

/-- The pattern loop of the profile JavaScript-data scan: a pattern
that matched, parsed and pushed at least one track without throwing
breaks the loop; otherwise the accumulated tracks carry over. -/
def method2Loop (html base artist : String) :
    List (String → Option String) → List Track → List Track
  | [], tracks => tracks
  | p :: ps, tracks =>
    match p html with
    | none => method2Loop html base artist ps tracks
    | some cap =>
      match jsonParse cap with
      | none => method2Loop html base artist ps tracks
      | some data =>
        match chooseCandidate data with
        | Except.error _ => method2Loop html base artist ps tracks
        | Except.ok arr =>
          let pr := pushLoop base artist arr
          let tracks2 := tracks ++ pr.1
          if !pr.2 && tracks2.length > 0 then tracks2
          else method2Loop html base artist ps tracks2

/-- Method 2 of the profile cascade. -/
def profileMethod2 (html base artist : String) : List Track :=
  method2Loop html base artist jsTrackPatterns []

/-- All non-overlapping matches of an anchored matcher, leftmost
first, resuming after each match (the /g flag). -/
def scanAllAux {α : Type} (m : List Char → Option (α × List Char)) :
    Nat → List Char → List α
  | 0, _ => []
  | fuel+1, l =>
    match l with
    | [] => []
    | c :: rest =>
      match m (c :: rest) with
      | some (a, restAfter) => a :: scanAllAux m fuel restAfter
      | none => scanAllAux m fuel rest

/-- All data-player-info captures in the raw HTML, in order. -/
def dataPlayerInfoCaptures (html : String) : List String :=
  scanAllAux matchDPIAt (html.data.length + 1) html.data

/-- Accepted tracks from a capture list, in order. -/
def tracksFromCaptures (base artist : String) : List String → List Track
  | [] => []
  | cap :: rest =>
    match trackFromJsonStr base artist cap with
    | some t => t :: tracksFromCaptures base artist rest
    | none => tracksFromCaptures base artist rest

/-- Method 3 of the profile cascade: regex-only attribute scan over
the raw HTML. -/
def profileMethod3 (html base artist : String) : List Track :=
  tracksFromCaptures base artist (dataPlayerInfoCaptures html)

/-- The page-type guess of the no-tracks diagnostic. -/
def pageTypeGuess (url : String) : String :=
  if jsIncludes url "/" && (jsSplit url "/").length > 4 then "individual track page"
  else "profile page"

/-- The no-tracks diagnostic message. -/
def noTracksMsg (url base : String) (elemCount : Nat) : String :=
  "No tracks found on this " ++ pageTypeGuess url ++
  ". Make sure the page has loaded completely and try again. Debug info: AWS URL " ++
  (if base ≠ "" then "found" else "missing") ++
  ", data-player-info elements: " ++ toString elemCount

/-- extractProfileBeats from the content script. -/
def extractProfileBeats (url : String) (page : Page)
    (createArtistFolder : Bool) : Except String ExtractData :=
  match extractArtistFromUrl url with
  | none => Except.error artistErrMsg
  | some artist =>
    match extractAwsBaseUrl page.html with
    | none => Except.error awsErrProfile
    | some base =>
      let t1 := profileMethod1 base artist page.playerInfoAttrs
      let t2 := if t1.length = 0 then profileMethod2 page.html base artist else t1
      let t3 := if t2.length = 0 then profileMethod3 page.html base artist else t2
      if t3.length = 0 then
        Except.error (noTracksMsg url base page.playerInfoAttrs.length)
      else
        Except.ok { tracks := t3, artist := artist,
                    createArtistFolder := createArtistFolder }

/-- The envelope returned to the message interface. -/
inductive Envelope where
  | success (data : ExtractData)
  | failure (error : String)
deriving Repr, DecidableEq

/-- handleDataExtraction from the content script: dispatch on the
requested type, converting every thrown error into a failure
envelope. -/
def handleDataExtraction (type : String) (createArtistFolder : Bool)
    (url : String) (redirect : String → Option String) (page : Page) : Envelope :=
  let r : Except String ExtractData :=
    if type = "single" then extractSingleBeat url redirect page createArtistFolder
    else if type = "profile" then extractProfileBeats url page createArtistFolder
    else Except.error "Invalid extraction type"
  match r with
  | Except.ok d => Envelope.success d
  | Except.error e => Envelope.failure e

/-- No two adjacent whitespace characters. -/
def wsOk : List Char → Bool
  | [] => true
  | [_] => true
  | a :: b :: t => !(jsWs a && jsWs b) && wsOk (b :: t)

/-- Neither the first nor the last character is whitespace. -/
def noEdgeWs (l : List Char) : Bool :=
  (match l with
   | [] => true
   | c :: _ => !jsWs c) &&
  (match l.getLast? with
   | none => true
   | some c => !jsWs c)

/-- The value extractSingleBeat returns once a locator strategy has
produced a descriptor: the download URL is the base concatenated with
the coerced src, the name is sanitized, and a non-string name raises
the sanitizer TypeError. -/
def singleResult (url : String) (page : Page) (cf : Bool) (base : String)
    (i : TrackInfo) : Except String ExtractData :=
  match i.name with
  | Json.str n =>
    Except.ok { tracks := [{ name := sanitizeFilename n,
                             url := base ++ jsToStringO i.src,
                             artist := singleArtist url page }],
                artist := singleArtist url page, createArtistFolder := cf }
  | _ => Except.error nameTypeErrMsg

section SanitizerLemmas

theorem jsWs_space : jsWs ' ' = true := by decide

theorem trimRightChars_cons (c : Char) (rest : List Char) :
    trimRightChars (c :: rest) =
      match trimRightChars rest with
      | [] => if jsWs c then [] else [c]
      | r => c :: r := rfl

theorem mem_collapseWs {c : Char} : ∀ {l : List Char}, c ∈ collapseWs l → c = ' ' ∨ c ∈ l
  | [], h => by simp [collapseWs] at h
  | [a], h => by
    simp only [collapseWs, List.mem_singleton] at h
    by_cases ha : jsWs a
    · simp [ha] at h; exact Or.inl h
    · simp [ha] at h; simp [h]
  | a :: b :: t, h => by
    simp only [collapseWs] at h
    by_cases hab : (jsWs a && jsWs b) = true
    · rw [if_pos hab] at h
      rcases mem_collapseWs h with h1 | h1
      · exact Or.inl h1
      · exact Or.inr (List.mem_cons_of_mem _ h1)
    · rw [if_neg hab] at h
      rcases List.mem_cons.mp h with h1 | h1
      · by_cases ha : jsWs a
        · simp [ha] at h1; exact Or.inl h1
        · simp [ha] at h1; simp [h1]
      · rcases mem_collapseWs h1 with h2 | h2
        · exact Or.inl h2
        · exact Or.inr (List.mem_cons_of_mem _ h2)

theorem ws_mem_collapseWs {c : Char} :
    ∀ {l : List Char}, c ∈ collapseWs l → jsWs c = true → c = ' '
  | [], h, _ => by simp [collapseWs] at h
  | [a], h, hc => by
    simp only [collapseWs, List.mem_singleton] at h
    by_cases ha : jsWs a
    · simpa [ha] using h
    · simp [ha] at h; rw [h] at hc; exact absurd hc (by simp [ha])
  | a :: b :: t, h, hc => by
    simp only [collapseWs] at h
    by_cases hab : (jsWs a && jsWs b) = true
    · rw [if_pos hab] at h; exact ws_mem_collapseWs h hc
    · rw [if_neg hab] at h
      rcases List.mem_cons.mp h with h1 | h1
      · by_cases ha : jsWs a
        · simpa [ha] using h1
        · simp [ha] at h1; rw [h1] at hc; exact absurd hc (by simp [ha])
      · exact ws_mem_collapseWs h1 hc

theorem collapseWs_head :
    ∀ (a : Char) (t : List Char), ∃ y ys, collapseWs (a :: t) = y :: ys ∧ jsWs y = jsWs a := by
  intro a t
  induction t generalizing a with
  | nil =>
    refine ⟨if jsWs a then ' ' else a, [], by simp [collapseWs], ?_⟩
    by_cases ha : jsWs a <;> simp [ha, jsWs_space]
  | cons b t2 ih =>
    by_cases hab : (jsWs a && jsWs b) = true
    · obtain ⟨y, ys, hy, hws⟩ := ih b
      refine ⟨y, ys, ?_, ?_⟩
      · simpa [collapseWs, hab] using hy
      · rw [hws]; have := hab; simp only [Bool.and_eq_true] at this
        rw [this.2, this.1]
    · refine ⟨if jsWs a then ' ' else a, collapseWs (b :: t2), by simp [collapseWs, hab], ?_⟩
      by_cases ha : jsWs a <;> simp [ha, jsWs_space]

theorem wsOk_tail {a : Char} {l : List Char} (h : wsOk (a :: l) = true) : wsOk l = true := by
  cases l with
  | nil => simp [wsOk]
  | cons b t => simp only [wsOk, Bool.and_eq_true] at h; exact h.2

theorem wsOk_collapseWs : ∀ (l : List Char), wsOk (collapseWs l) = true
  | [] => by simp [collapseWs, wsOk]
  | [a] => by simp [collapseWs, wsOk]
  | a :: b :: t => by
    by_cases hab : (jsWs a && jsWs b) = true
    · simpa [collapseWs, hab] using wsOk_collapseWs (b :: t)
    · obtain ⟨y, ys, hy, hws⟩ := collapseWs_head b t
      have hrec := wsOk_collapseWs (b :: t)
      simp only [collapseWs, if_neg hab]
      rw [hy] at hrec ⊢
      simp only [wsOk, Bool.and_eq_true]
      refine ⟨?_, hrec⟩
      have hx : jsWs (if jsWs a then ' ' else a) = jsWs a := by
        by_cases ha : jsWs a <;> simp [ha, jsWs_space]
      have hab2 : jsWs a = false ∨ jsWs b = false := by
        by_cases h1 : jsWs a = true
        · by_cases h2 : jsWs b = true
          · exact absurd (by rw [h1, h2]; rfl) hab
          · exact Or.inr (by simpa using h2)
        · exact Or.inl (by simpa using h1)
      have hfalse : (jsWs (if jsWs a then ' ' else a) && jsWs y) = false := by
        rw [hx, hws]
        rcases hab2 with h1 | h1 <;> simp [h1]
      simp [hfalse]

theorem collapseWs_id :
    ∀ (l : List Char), wsOk l = true → (∀ c ∈ l, jsWs c = true → c = ' ') →
      collapseWs l = l
  | [], _, _ => by simp [collapseWs]
  | [a], _, hmem => by
    by_cases ha : jsWs a
    · have := hmem a (by simp) ha; simp [collapseWs, ha, this]
    · simp [collapseWs, ha]
  | a :: b :: t, hok, hmem => by
    have hab : ¬((jsWs a && jsWs b) = true) := by
      simp only [wsOk, Bool.and_eq_true, Bool.not_eq_true'] at hok
      simp [hok.1]
    have htail : collapseWs (b :: t) = b :: t :=
      collapseWs_id (b :: t) (wsOk_tail hok)
        (fun c hc h => hmem c (List.mem_cons_of_mem _ hc) h)
    simp only [collapseWs, if_neg hab, htail]
    by_cases ha : jsWs a
    · have := hmem a (by simp) ha; simp [ha, this]
    · simp [ha]

theorem trimRightChars_take : ∀ (l : List Char), ∃ k, trimRightChars l = l.take k
  | [] => ⟨0, by simp [trimRightChars]⟩
  | c :: rest => by
    obtain ⟨k, hk⟩ := trimRightChars_take rest
    cases h : trimRightChars rest with
    | nil =>
      by_cases hc : jsWs c
      · exact ⟨0, by simp [trimRightChars, h, hc]⟩
      · exact ⟨1, by simp [trimRightChars, h, hc]⟩
    | cons x xs =>
      refine ⟨k + 1, ?_⟩
      rw [h] at hk
      simp only [trimRightChars, h, List.take]
      rw [← hk]

theorem trimRightChars_last :
    ∀ (l : List Char) (c : Char), (trimRightChars l).getLast? = some c → jsWs c = false
  | [], c, h => by simp [trimRightChars] at h
  | a :: rest, c, h => by
    cases hr : trimRightChars rest with
    | nil =>
      by_cases ha : jsWs a
      · simp [trimRightChars, hr, ha] at h
      · simp only [trimRightChars, hr, if_neg ha] at h
        simp at h; rw [← h]; simpa using ha
    | cons x xs =>
      simp only [trimRightChars, hr] at h
      rw [List.getLast?_cons_cons] at h
      exact trimRightChars_last rest c (by rw [hr]; exact h)

theorem trimRightChars_id :
    ∀ (l : List Char), (∀ c, l.getLast? = some c → jsWs c = false) →
      trimRightChars l = l
  | [], _ => by simp [trimRightChars]
  | [a], h => by
    have := h a (by simp)
    simp [trimRightChars, this]
  | a :: b :: t, h => by
    have htail : trimRightChars (b :: t) = b :: t :=
      trimRightChars_id (b :: t) (fun c hc => h c (by rwa [List.getLast?_cons_cons]))
    rw [trimRightChars_cons, htail]

theorem mem_dropWhile {c : Char} {p : Char → Bool} :
    ∀ {l : List Char}, c ∈ l.dropWhile p → c ∈ l
  | [], h => by simp [List.dropWhile] at h
  | a :: t, h => by
    by_cases ha : p a
    · simp only [List.dropWhile, ha] at h
      exact List.mem_cons_of_mem _ (mem_dropWhile h)
    · simp only [List.dropWhile, ha] at h; simpa using h

theorem head_dropWhile {p : Char → Bool} :
    ∀ {l : List Char} {c : Char} {t : List Char}, l.dropWhile p = c :: t → p c = false
  | [], c, t, h => by simp [List.dropWhile] at h
  | a :: r, c, t, h => by
    by_cases ha : p a
    · simp only [List.dropWhile, ha] at h; exact head_dropWhile h
    · simp only [List.dropWhile, ha] at h
      injection h with h1 h2
      rw [← h1]; simpa using ha

theorem wsOk_dropWhile {p : Char → Bool} :
    ∀ {l : List Char}, wsOk l = true → wsOk (l.dropWhile p) = true
  | [], h => h
  | a :: t, h => by
    by_cases ha : p a
    · simp only [List.dropWhile, ha]; exact wsOk_dropWhile (wsOk_tail h)
    · simpa [List.dropWhile, ha] using h

theorem wsOk_take : ∀ (k : Nat) (l : List Char), wsOk l = true → wsOk (l.take k) = true := by
  intro k l
  induction l generalizing k with
  | nil => intro h; simpa [List.take] using h
  | cons a t ih =>
    intro h
    cases k with
    | zero => simp [wsOk]
    | succ k2 =>
      cases t with
      | nil => simpa using h
      | cons b t2 =>
        cases k2 with
        | zero => simp [wsOk]
        | succ k3 =>
          simp only [List.take]
          simp only [wsOk, Bool.and_eq_true] at h ⊢
          refine ⟨h.1, ?_⟩
          have := ih (k3 + 1) h.2
          simpa [List.take] using this

theorem take_head {l : List Char} {k : Nat} {c : Char} {t : List Char}
    (h : l.take k = c :: t) : ∃ t2, l = c :: t2 := by
  cases l with
  | nil => simp at h
  | cons a r =>
    cases k with
    | zero => simp at h
    | succ k2 =>
      simp only [List.take] at h
      injection h with h1 h2
      exact ⟨r, by rw [h1]⟩

theorem dropWhile_id {p : Char → Bool} :
    ∀ {l : List Char}, (∀ c t, l = c :: t → p c = false) → l.dropWhile p = l
  | [], _ => by simp
  | a :: t, h => by
    have := h a t rfl
    simp [List.dropWhile, this]

theorem mem_take {c : Char} : ∀ {k : Nat} {l : List Char}, c ∈ l.take k → c ∈ l := by
  intro k l
  induction l generalizing k with
  | nil => intro h; simp at h
  | cons a t ih =>
    intro h
    cases k with
    | zero => simp at h
    | succ k2 =>
      simp only [List.take] at h
      rcases List.mem_cons.mp h with h1 | h1
      · simp [h1]
      · exact List.mem_cons_of_mem _ (ih h1)

theorem mem_sanitizeChars {l : List Char} {c : Char} (h : c ∈ sanitizeChars l) :
    c = ' ' ∨ c ∈ l.filter (fun c2 => !isBadChar c2) := by
  unfold sanitizeChars trimChars at h
  obtain ⟨k, hk⟩ :=
    trimRightChars_take ((collapseWs (l.filter (fun c2 => !isBadChar c2))).dropWhile jsWs)
  rw [hk] at h
  exact mem_collapseWs (mem_dropWhile (mem_take h))

theorem sanitizeChars_noBad {l : List Char} {c : Char} (h : c ∈ sanitizeChars l) :
    isBadChar c = false := by
  rcases mem_sanitizeChars h with h1 | h1
  · rw [h1]; decide
  · have := (List.mem_filter.mp h1).2
    simp at this
    exact this

theorem sanitizeChars_wsSpace {l : List Char} {c : Char} (h : c ∈ sanitizeChars l)
    (hw : jsWs c = true) : c = ' ' := by
  unfold sanitizeChars trimChars at h
  obtain ⟨k, hk⟩ :=
    trimRightChars_take ((collapseWs (l.filter (fun c2 => !isBadChar c2))).dropWhile jsWs)
  rw [hk] at h
  exact ws_mem_collapseWs (mem_dropWhile (mem_take h)) hw

theorem sanitizeChars_wsOk (l : List Char) : wsOk (sanitizeChars l) = true := by
  unfold sanitizeChars trimChars
  obtain ⟨k, hk⟩ :=
    trimRightChars_take ((collapseWs (l.filter (fun c2 => !isBadChar c2))).dropWhile jsWs)
  rw [hk]
  exact wsOk_take k _ (wsOk_dropWhile (wsOk_collapseWs _))

theorem sanitizeChars_head {l : List Char} {c : Char} {t : List Char}
    (h : sanitizeChars l = c :: t) : jsWs c = false := by
  unfold sanitizeChars trimChars at h
  obtain ⟨k, hk⟩ :=
    trimRightChars_take ((collapseWs (l.filter (fun c2 => !isBadChar c2))).dropWhile jsWs)
  rw [hk] at h
  obtain ⟨t2, ht2⟩ := take_head h
  exact head_dropWhile ht2

theorem sanitizeChars_last {l : List Char} {c : Char}
    (h : (sanitizeChars l).getLast? = some c) : jsWs c = false :=
  trimRightChars_last _ c h

theorem sanitizeChars_idem (l : List Char) :
    sanitizeChars (sanitizeChars l) = sanitizeChars l := by
  have h1 : (sanitizeChars l).filter (fun c2 => !isBadChar c2) = sanitizeChars l :=
    List.filter_eq_self.mpr (fun c hc => by simp [sanitizeChars_noBad hc])
  have h2 : collapseWs (sanitizeChars l) = sanitizeChars l :=
    collapseWs_id _ (sanitizeChars_wsOk l) (fun c hc hw => sanitizeChars_wsSpace hc hw)
  have h3 : (sanitizeChars l).dropWhile jsWs = sanitizeChars l :=
    dropWhile_id (fun c t hct => sanitizeChars_head hct)
  have h4 : trimRightChars (sanitizeChars l) = sanitizeChars l :=
    trimRightChars_id _ (fun c hc => sanitizeChars_last hc)
  show trimRightChars
      ((collapseWs ((sanitizeChars l).filter (fun c2 => !isBadChar c2))).dropWhile jsWs) =
    sanitizeChars l
  rw [h1, h2, h3, h4]

end SanitizerLemmas

/-- C2: the filename sanitizer is pure and deterministic; sanitizing
twice equals sanitizing once; the output contains none of the invalid
characters, every whitespace character of the output is a single space
never adjacent to another, and there is no leading or trailing
whitespace. -/
theorem spec_C2_sanitizer (x : String) :
    sanitizeFilename (sanitizeFilename x) = sanitizeFilename x ∧
    (∀ c ∈ (sanitizeFilename x).data, isBadChar c = false) ∧
    (∀ c ∈ (sanitizeFilename x).data, jsWs c = true → c = ' ') ∧
    wsOk (sanitizeFilename x).data = true ∧
    noEdgeWs (sanitizeFilename x).data = true := by
  refine ⟨?_, ?_, ?_, ?_, ?_⟩
  · exact congrArg String.mk (sanitizeChars_idem x.data)
  · intro c hc; exact sanitizeChars_noBad hc
  · intro c hc hw; exact sanitizeChars_wsSpace hc hw
  · exact sanitizeChars_wsOk x.data
  · show noEdgeWs (sanitizeChars x.data) = true
    unfold noEdgeWs
    have h1 : (match sanitizeChars x.data with
               | [] => true
               | c :: _ => !jsWs c) = true := by
      cases hc : sanitizeChars x.data with
      | nil => rfl
      | cons c t => simp [sanitizeChars_head hc]
    have h2 : (match (sanitizeChars x.data).getLast? with
               | none => true
               | some c => !jsWs c) = true := by
      cases hc : (sanitizeChars x.data).getLast? with
      | none => rfl
      | some c => simp [sanitizeChars_last hc]
    rw [h1, h2]
    rfl

/-- C4: when no artist handle can be derived from a profile URL the
extraction fails with the artist error before any locator strategy is
attempted (the result is the same for every page content) and no
success state is returned. -/
theorem spec_C4_artist_required (url : String) (page : Page) (cf : Bool)
    (h : extractArtistFromUrl url = none) :
    extractProfileBeats url page cf = Except.error artistErrMsg ∧
    ∀ d, extractProfileBeats url page cf ≠ Except.ok d := by
  unfold extractProfileBeats
  rw [h]
  exact ⟨rfl, by intro d hd; exact Except.noConfusion hd⟩

theorem spec_C4_witness :
    extractProfileBeats "https://traktrain.com/"
      { html := "<html><body><div data-player-info=\x27\x7b\x22name\x22:\x22A\x22,\x22src\x22:\x22/a.mp3\x22\x7d\x27></div></body></html>",
        title := "", metaArtist := none, h1 := none, scripts := [],
        audioSrcs := [],
        playerInfoAttrs := ["\x7b\x22name\x22:\x22A\x22,\x22src\x22:\x22/a.mp3\x22\x7d"] }
      false = Except.error artistErrMsg :=
  (spec_C4_artist_required "https://traktrain.com/" _ false rfl).1

/-- C3 counterexample: a profile page without a derivable artist
handle and without a base content URL fails with the artist error, not
with the base-content-URL error the claim names, although valid track
attributes are present. -/
theorem spec_C3_counterexample :
    extractAwsBaseUrl "<html><body><div data-player-info=\x27\x7b\x22name\x22:\x22A\x22,\x22src\x22:\x22/a.mp3\x22\x7d\x27></div></body></html>" = none ∧
    extractProfileBeats "https://traktrain.com/"
      { html := "<html><body><div data-player-info=\x27\x7b\x22name\x22:\x22A\x22,\x22src\x22:\x22/a.mp3\x22\x7d\x27></div></body></html>",
        title := "", metaArtist := none, h1 := none, scripts := [],
        audioSrcs := [],
        playerInfoAttrs := ["\x7b\x22name\x22:\x22A\x22,\x22src\x22:\x22/a.mp3\x22\x7d"] }
      false = Except.error artistErrMsg ∧
    artistErrMsg ≠ awsErrProfile := by
  exact ⟨rfl, rfl, by decide⟩

/-- C3 amended: when no base content URL is found, extraction fails
before any locator strategy runs for both page types and regardless of
track attributes present; the error is the base-content-URL error,
except that a profile page without a derivable artist handle fails
with the artist error first, and a single-track short URL whose
redirect fails fails with the redirect error first. -/
theorem spec_C3_amended (url : String) (redirect : String → Option String)
    (page : Page) (cf : Bool) (h : extractAwsBaseUrl page.html = none) :
    (∃ e, extractProfileBeats url page cf = Except.error e ∧
       (e = artistErrMsg ∨ e = awsErrProfile) ∧
       (∀ a, extractArtistFromUrl url = some a → e = awsErrProfile)) ∧
    (∃ e, extractSingleBeat url redirect page cf = Except.error e ∧
       (e = redirectErrMsg ∨ e = awsErrSingle) ∧
       (jsIncludes url "traktra.in/t/" = false → e = awsErrSingle)) := by
  constructor
  · cases ha : extractArtistFromUrl url with
    | none =>
      refine ⟨artistErrMsg, ?_, Or.inl rfl, ?_⟩
      · unfold extractProfileBeats; rw [ha]
      · intro a haa; exact Option.noConfusion haa
    | some a =>
      refine ⟨awsErrProfile, ?_, Or.inr rfl, fun _ _ => rfl⟩
      simp [extractProfileBeats, ha, h]
  · cases hshort : jsIncludes url "traktra.in/t/" with
    | false =>
      refine ⟨awsErrSingle, ?_, Or.inr rfl, fun _ => rfl⟩
      simp [extractSingleBeat, hshort, h]
    | true =>
      cases hr : redirect url with
      | none =>
        refine ⟨redirectErrMsg, ?_, Or.inl rfl, fun hfalse => ?_⟩
        · simp [extractSingleBeat, hshort, hr]
        · exact Bool.noConfusion hfalse
      | some r =>
        refine ⟨awsErrSingle, ?_, Or.inr rfl, fun _ => rfl⟩
        simp [extractSingleBeat, hshort, hr, h]

theorem spec_C3_witness :
    (∃ e, extractProfileBeats "https://traktrain.com/someartist"
      { html := "<html>no base here</html>", title := "", metaArtist := none,
        h1 := none, scripts := [], audioSrcs := [],
        playerInfoAttrs := ["\x7b\x22name\x22:\x22A\x22,\x22src\x22:\x22/a.mp3\x22\x7d"] }
      false = Except.error e ∧
      (e = artistErrMsg ∨ e = awsErrProfile) ∧
      (∀ a, extractArtistFromUrl "https://traktrain.com/someartist" = some a →
        e = awsErrProfile)) ∧
    (∃ e, extractSingleBeat "https://traktrain.com/someartist" (fun _ => none)
      { html := "<html>no base here</html>", title := "", metaArtist := none,
        h1 := none, scripts := [], audioSrcs := [],
        playerInfoAttrs := ["\x7b\x22name\x22:\x22A\x22,\x22src\x22:\x22/a.mp3\x22\x7d"] }
      false = Except.error e ∧
      (e = redirectErrMsg ∨ e = awsErrSingle) ∧
      (jsIncludes "https://traktrain.com/someartist" "traktra.in/t/" = false →
        e = awsErrSingle)) :=
  spec_C3_amended "https://traktrain.com/someartist" (fun _ => none) _ false rfl

/-- C10: the extraction handler always resolves to an envelope and
never escapes an exception: an unknown type yields the invalid-type
failure envelope, and every internally raised error surfaces as a
failure envelope carrying the error message. -/
theorem spec_C10_envelope (type : String) (cf : Bool) (url : String)
    (redirect : String → Option String) (page : Page) :
    ((∃ d, handleDataExtraction type cf url redirect page = Envelope.success d) ∨
     (∃ e, handleDataExtraction type cf url redirect page = Envelope.failure e)) ∧
    (type ≠ "single" → type ≠ "profile" →
      handleDataExtraction type cf url redirect page =
        Envelope.failure "Invalid extraction type") ∧
    (type = "single" → ∀ e, extractSingleBeat url redirect page cf = Except.error e →
      handleDataExtraction type cf url redirect page = Envelope.failure e) ∧
    (type = "profile" → ∀ e, extractProfileBeats url page cf = Except.error e →
      handleDataExtraction type cf url redirect page = Envelope.failure e) := by
  refine ⟨?_, ?_, ?_, ?_⟩
  · unfold handleDataExtraction
    rcases hr : (if type = "single" then extractSingleBeat url redirect page cf
      else if type = "profile" then extractProfileBeats url page cf
      else Except.error "Invalid extraction type") with e | d
    · exact Or.inr ⟨e, rfl⟩
    · exact Or.inl ⟨d, rfl⟩
  · intro h1 h2
    unfold handleDataExtraction
    rw [if_neg h1, if_neg h2]
  · intro ht e he
    unfold handleDataExtraction
    rw [if_pos ht, he]
  · intro ht e he
    unfold handleDataExtraction
    rw [if_pos ht]
    rw [if_neg (by rw [ht]; decide), he]

theorem spec_C10_witness :
    handleDataExtraction "bogus" false "https://traktrain.com/x" (fun _ => none)
      { html := "", title := "", metaArtist := none, h1 := none, scripts := [],
        audioSrcs := [], playerInfoAttrs := [] } =
      Envelope.failure "Invalid extraction type" :=
  (spec_C10_envelope "bogus" false "https://traktrain.com/x" (fun _ => none) _).2.1
    (by decide) (by decide)

/-- C1: evaluation of the code at the claimed scenario.  The base
content URL is present, but the data-player-info regex captures only
the opening brace of the JSON payload (its character class stops at
the first quote), the capture does not parse, no other strategy
applies, and the single-track extraction throws the track-not-found
error instead of returning the claimed track. -/
theorem spec_C1_code_eval :
    extractAwsBaseUrl "<html><head><script>var AWS_BASE_URL = \x22https://cdn.example.com/\x22;</script></head><body><div data-player-info=\x27\x7b\x22name\x22:\x22My Track\x22,\x22src\x22:\x22/abc.mp3\x22\x7d\x27></div></body></html>"
      = some "https://cdn.example.com/" ∧
    extractTrackInfoCapture "<html><head><script>var AWS_BASE_URL = \x22https://cdn.example.com/\x22;</script></head><body><div data-player-info=\x27\x7b\x22name\x22:\x22My Track\x22,\x22src\x22:\x22/abc.mp3\x22\x7d\x27></div></body></html>"
      = some "\x7b" ∧
    jsonParse "\x7b" = none ∧
    extractSingleBeat "https://traktrain.com/someartist/my-track" (fun _ => none)
      { html := "<html><head><script>var AWS_BASE_URL = \x22https://cdn.example.com/\x22;</script></head><body><div data-player-info=\x27\x7b\x22name\x22:\x22My Track\x22,\x22src\x22:\x22/abc.mp3\x22\x7d\x27></div></body></html>",
        title := "My Track - Some Artist", metaArtist := none, h1 := none,
        scripts := ["var AWS_BASE_URL = \x22https://cdn.example.com/\x22;"],
        audioSrcs := [],
        playerInfoAttrs := ["\x7b\x22name\x22:\x22My Track\x22,\x22src\x22:\x22/abc.mp3\x22\x7d"] }
      false = Except.error trackNotFoundMsg :=
  ⟨rfl, rfl, rfl, rfl⟩

/-- C5 counterexample: a successful profile extraction whose base
content URL is the string x produces a track URL that is not a
syntactically valid absolute URL. -/
theorem spec_C5_counterexample :
    extractProfileBeats "https://traktrain.com/someartist"
      { html := "var AWS_BASE_URL = \x22x\x22;", title := "", metaArtist := none,
        h1 := none, scripts := [], audioSrcs := [],
        playerInfoAttrs := ["\x7b\x22name\x22:\x22A\x22,\x22src\x22:\x22/a.mp3\x22\x7d"] }
      false = Except.ok
        { tracks := [{ name := "A", url := "x/a.mp3", artist := "someartist" }],
          artist := "someartist", createArtistFolder := false } ∧
    isAbsoluteUrl "x/a.mp3" = false :=
  ⟨rfl, rfl⟩

/-- C6 counterexample: a data-player-info payload whose JSON parses
but has no src field ends the cascade at strategy one with a success
envelope whose URL ends in undefined, instead of falling through or
failing with the track-not-found error. -/
theorem spec_C6_counterexample :
    extractTrackInfo "<p>var AWS_BASE_URL = \x22https://cdn.example.com/\x22;</p><div data-player-info=\x27\x7b\x7d\x27></div>"
      = some { name := Json.str "Unknown Track", src := none } ∧
    extractSingleBeat "https://traktrain.com/artistx/track" (fun _ => none)
      { html := "<p>var AWS_BASE_URL = \x22https://cdn.example.com/\x22;</p><div data-player-info=\x27\x7b\x7d\x27></div>",
        title := "", metaArtist := none, h1 := none, scripts := [],
        audioSrcs := [], playerInfoAttrs := ["\x7b\x7d"] }
      false = Except.ok
        { tracks := [{ name := "Unknown Track",
                       url := "https://cdn.example.com/undefined",
                       artist := "artistx" }],
          artist := "artistx", createArtistFolder := false } :=
  ⟨rfl, rfl⟩

/-- C7 counterexample: on a title of the shape first-segment dash
second-segment, strategy three derives the candidate name from the
first segment, not the second segment the claim names. -/
theorem spec_C7_counterexample :
    titleMatch "My Song - DJ X" = some ("My Song", "DJ X") ∧
    method3Single "My Song - DJ X" none "https://cdn.example.com/"
        ["https://cdn.example.com/a.mp3"]
      = some { name := Json.str "My Song", src := some (Json.str "a.mp3") } ∧
    trimJs "My Song" ≠ trimJs "DJ X" :=
  ⟨rfl, rfl, by decide⟩

set_option maxRecDepth 40000 in
/-- C9 counterexample: the first matching pattern captures a JSON
object whose tracks field is an empty array and whose beats field
holds a valid track; the probe keeps the empty tracks array (first
truthy candidate, not first non-empty), the pattern yields nothing,
the later patterns capture unparsable text, and the whole profile
extraction fails although the claim predicts the beats track. -/
theorem spec_C9_counterexample :
    scanFirst (matchStateAt ("window.__INITIAL_STATE__").data)
        ("window.__INITIAL_STATE__ = \x7b\x22tracks\x22:[],\x22beats\x22:[\x7b\x22name\x22:\x22A\x22,\x22src\x22:\x22/a.mp3\x22,\x22tags\x22:[\x22x\x22]\x7d]\x7d; var AWS_BASE_URL = \x22https://cdn.example.com/\x22;").data
      = some "\x7b\x22tracks\x22:[],\x22beats\x22:[\x7b\x22name\x22:\x22A\x22,\x22src\x22:\x22/a.mp3\x22,\x22tags\x22:[\x22x\x22]\x7d]\x7d" ∧
    jsonParse "\x7b\x22tracks\x22:[],\x22beats\x22:[\x7b\x22name\x22:\x22A\x22,\x22src\x22:\x22/a.mp3\x22,\x22tags\x22:[\x22x\x22]\x7d]\x7d"
      = some (Json.obj
          [("tracks", Json.arr []),
           ("beats", Json.arr
             [Json.obj [("name", Json.str "A"), ("src", Json.str "/a.mp3"),
                        ("tags", Json.arr [Json.str "x"])]])]) ∧
    (Json.obj
        [("tracks", Json.arr []),
         ("beats", Json.arr
           [Json.obj [("name", Json.str "A"), ("src", Json.str "/a.mp3"),
                      ("tags", Json.arr [Json.str "x"])]])]).getField "tracks"
      = some (Json.arr []) ∧
    (Json.obj
        [("tracks", Json.arr []),
         ("beats", Json.arr
           [Json.obj [("name", Json.str "A"), ("src", Json.str "/a.mp3"),
                      ("tags", Json.arr [Json.str "x"])]])]).getField "beats"
      = some (Json.arr
          [Json.obj [("name", Json.str "A"), ("src", Json.str "/a.mp3"),
                     ("tags", Json.arr [Json.str "x"])]]) ∧
    profileMethod2
        "window.__INITIAL_STATE__ = \x7b\x22tracks\x22:[],\x22beats\x22:[\x7b\x22name\x22:\x22A\x22,\x22src\x22:\x22/a.mp3\x22,\x22tags\x22:[\x22x\x22]\x7d]\x7d; var AWS_BASE_URL = \x22https://cdn.example.com/\x22;"
        "https://cdn.example.com/" "someartist" = [] ∧
    extractProfileBeats "https://traktrain.com/someartist"
      { html := "window.__INITIAL_STATE__ = \x7b\x22tracks\x22:[],\x22beats\x22:[\x7b\x22name\x22:\x22A\x22,\x22src\x22:\x22/a.mp3\x22,\x22tags\x22:[\x22x\x22]\x7d]\x7d; var AWS_BASE_URL = \x22https://cdn.example.com/\x22;",
        title := "", metaArtist := none, h1 := none, scripts := [],
        audioSrcs := [], playerInfoAttrs := [] }
      false = Except.error
        "No tracks found on this profile page. Make sure the page has loaded completely and try again. Debug info: AWS URL found, data-player-info elements: 0" :=
  ⟨rfl, rfl, rfl, rfl, rfl, rfl⟩

theorem jsonParse_nil : jsonParse "" = none := rfl

/-- C6 amended: the single-track cascade tries its four strategies in
fixed priority order and short-circuits on the first strategy that
yields any descriptor; structural validity is not required, so
strategy one ends the cascade even when its descriptor has no src
(the URL then ends in undefined); the track-not-found error is thrown
exactly when all four strategies yield nothing. -/
theorem spec_C6_amended (url : String) (redirect : String → Option String)
    (page : Page) (cf : Bool) (base : String)
    (hshort : jsIncludes url "traktra.in/t/" = false)
    (hbase : extractAwsBaseUrl page.html = some base) :
    (∀ i, extractTrackInfo page.html = some i →
      extractSingleBeat url redirect page cf = singleResult url page cf base i) ∧
    (extractTrackInfo page.html = none →
      ∀ i, findTrackInScripts page.scripts = some i →
        extractSingleBeat url redirect page cf = singleResult url page cf base i) ∧
    (extractTrackInfo page.html = none →
      findTrackInScripts page.scripts = none →
      ∀ i, method3Single page.title page.h1 base page.audioSrcs = some i →
        extractSingleBeat url redirect page cf = singleResult url page cf base i) ∧
    (extractTrackInfo page.html = none →
      findTrackInScripts page.scripts = none →
      method3Single page.title page.h1 base page.audioSrcs = none →
      ∀ i, method4Single url page.title page.html base = some i →
        extractSingleBeat url redirect page cf = singleResult url page cf base i) ∧
    (extractTrackInfo page.html = none →
      findTrackInScripts page.scripts = none →
      method3Single page.title page.h1 base page.audioSrcs = none →
      method4Single url page.title page.html base = none →
      extractSingleBeat url redirect page cf = Except.error trackNotFoundMsg) := by
  refine ⟨?_, ?_, ?_, ?_, ?_⟩
  · intro i h1
    simp [extractSingleBeat, hshort, hbase, h1, singleResult]
  · intro h1 i h2
    simp [extractSingleBeat, hshort, hbase, h1, h2, singleResult]
  · intro h1 h2 i h3
    simp [extractSingleBeat, hshort, hbase, h1, h2, h3, singleResult]
  · intro h1 h2 h3 i h4
    simp [extractSingleBeat, hshort, hbase, h1, h2, h3, h4, singleResult]
  · intro h1 h2 h3 h4
    simp [extractSingleBeat, hshort, hbase, h1, h2, h3, h4]

theorem spec_C6_witness :
    extractSingleBeat "https://traktrain.com/artistx/track" (fun _ => none)
      { html := "<p>var AWS_BASE_URL = \x22https://cdn.example.com/\x22;</p><div data-player-info=\x27\x7b\x7d\x27></div>",
        title := "", metaArtist := none, h1 := none, scripts := [],
        audioSrcs := [], playerInfoAttrs := ["\x7b\x7d"] }
      false =
    singleResult "https://traktrain.com/artistx/track"
      { html := "<p>var AWS_BASE_URL = \x22https://cdn.example.com/\x22;</p><div data-player-info=\x27\x7b\x7d\x27></div>",
        title := "", metaArtist := none, h1 := none, scripts := [],
        audioSrcs := [], playerInfoAttrs := ["\x7b\x7d"] }
      false "https://cdn.example.com/"
      { name := Json.str "Unknown Track", src := none } :=
  (spec_C6_amended "https://traktrain.com/artistx/track" (fun _ => none)
      { html := "<p>var AWS_BASE_URL = \x22https://cdn.example.com/\x22;</p><div data-player-info=\x27\x7b\x7d\x27></div>",
        title := "", metaArtist := none, h1 := none, scripts := [],
        audioSrcs := [], playerInfoAttrs := ["\x7b\x7d"] }
      false "https://cdn.example.com/" rfl rfl).1
    { name := Json.str "Unknown Track", src := none } rfl

theorem method3Audio_some {base : String} :
    ∀ {srcs : List String} {p : String}, method3Audio base srcs = some p →
      ∃ s ∈ srcs, (s ≠ "" ∧ jsIncludes s ".mp3" = true ∧ jsReplaceFirst s base ≠ s) ∧
        p = jsReplaceFirst s base := by
  intro srcs
  induction srcs with
  | nil => intro p h; simp [method3Audio] at h
  | cons s rest ih =>
    intro p h
    unfold method3Audio at h
    by_cases hc : (s ≠ "" && jsIncludes s ".mp3") = true
    · rw [if_pos hc] at h
      by_cases hp : jsReplaceFirst s base ≠ s
      · rw [if_pos hp] at h
        injection h with h2
        simp only [Bool.and_eq_true, decide_eq_true_eq] at hc
        exact ⟨s, by simp, ⟨hc.1, hc.2, hp⟩, h2.symm⟩
      · rw [if_neg hp] at h
        obtain ⟨s2, hs2, hcond, hpeq⟩ := ih h
        exact ⟨s2, List.mem_cons_of_mem _ hs2, hcond, hpeq⟩
    · rw [if_neg hc] at h
      obtain ⟨s2, hs2, hcond, hpeq⟩ := ih h
      exact ⟨s2, List.mem_cons_of_mem _ hs2, hcond, hpeq⟩

theorem method3Audio_none {base : String} :
    ∀ {srcs : List String},
      (∀ s ∈ srcs, ¬(s ≠ "" ∧ jsIncludes s ".mp3" = true ∧ jsReplaceFirst s base ≠ s)) →
      method3Audio base srcs = none := by
  intro srcs
  induction srcs with
  | nil => intro _; rfl
  | cons s rest ih =>
    intro h
    unfold method3Audio
    have hs := h s (by simp)
    by_cases hc : (s ≠ "" && jsIncludes s ".mp3") = true
    · rw [if_pos hc]
      simp only [Bool.and_eq_true, decide_eq_true_eq] at hc
      by_cases hp : jsReplaceFirst s base ≠ s
      · exact absurd ⟨hc.1, hc.2, hp⟩ hs
      · rw [if_neg hp]
        exact ih (fun s2 hs2 => h s2 (List.mem_cons_of_mem _ hs2))
    · rw [if_neg hc]
      exact ih (fun s2 hs2 => h s2 (List.mem_cons_of_mem _ hs2))

/-- C7 amended: strategy three derives the candidate name from the
first segment of the title match (not the second), or else from the
first heading; it derives the src from the first audio-bearing source
that contains ".mp3" and contains the base URL somewhere (removing
the first occurrence, which need not be a prefix); it yields a
descriptor exactly when such a src exists, with the name defaulting
to Unknown Track when no candidate name was found. -/
theorem spec_C7_amended (title : String) (h1 : Option String) (base : String)
    (srcs : List String) :
    (∀ g1 g2, titleMatch title = some (g1, g2) →
      method3Name title h1 = some (trimJs g1)) ∧
    (titleMatch title = none → method3Name title h1 = Option.map trimJs h1) ∧
    (∀ i, method3Single title h1 base srcs = some i →
      ∃ s ∈ srcs, (s ≠ "" ∧ jsIncludes s ".mp3" = true ∧ jsReplaceFirst s base ≠ s) ∧
        i.src = some (Json.str (jsReplaceFirst s base)) ∧
        i.name = Json.str (match method3Name title h1 with
          | some n => if n = "" then "Unknown Track" else n
          | none => "Unknown Track")) ∧
    ((∀ s ∈ srcs, ¬(s ≠ "" ∧ jsIncludes s ".mp3" = true ∧ jsReplaceFirst s base ≠ s)) →
      method3Single title h1 base srcs = none) := by
  refine ⟨?_, ?_, ?_, ?_⟩
  · intro g1 g2 h
    unfold method3Name
    rw [h]
  · intro h
    unfold method3Name
    rw [h]
    cases h1 with
    | none => rfl
    | some v => rfl
  · intro i h
    unfold method3Single at h
    cases haud : method3Audio base srcs with
    | none => rw [haud] at h; exact Option.noConfusion h
    | some p =>
      rw [haud] at h
      obtain ⟨s, hs, hcond, hpeq⟩ := method3Audio_some haud
      injection h with h2
      refine ⟨s, hs, hcond, ?_, ?_⟩
      · rw [← h2, ← hpeq]
      · rw [← h2]
  · intro h
    unfold method3Single
    rw [method3Audio_none h]

theorem spec_C7_witness :
    method3Name "My Song - DJ X" none = some (trimJs "My Song") ∧
    method3Single "My Song - DJ X" none "https://cdn.example.com/" ["nothing here"]
      = none :=
  ⟨(spec_C7_amended "My Song - DJ X" none "https://cdn.example.com/" []).1
      "My Song" "DJ X" rfl,
   (spec_C7_amended "My Song - DJ X" none "https://cdn.example.com/"
      ["nothing here"]).2.2.2 (by decide)⟩

theorem trackFromJsonStr_none {base artist a : String} (h : jsonParse a = none) :
    trackFromJsonStr base artist a = none := by
  unfold trackFromJsonStr
  rw [h]

theorem profileMethod1_skip (base artist bad : String) (hbad : jsonParse bad = none) :
    ∀ pre post, profileMethod1 base artist (pre ++ bad :: post) =
      profileMethod1 base artist (pre ++ post) := by
  intro pre
  induction pre with
  | nil =>
    intro post
    by_cases hb : bad = ""
    · simp [profileMethod1, hb]
    · simp [profileMethod1, hb, trackFromJsonStr_none hbad]
  | cons a t ih =>
    intro post
    by_cases ha : a = ""
    · simp only [List.cons_append, profileMethod1, if_pos ha]
      exact ih post
    · cases htr : trackFromJsonStr base artist a with
      | none =>
        simp only [List.cons_append, profileMethod1, if_neg ha, htr]
        exact ih post
      | some tr =>
        simp only [List.cons_append, profileMethod1, if_neg ha, htr]
        exact congrArg (fun l => tr :: l) (ih post)

theorem trackFromJsonStr_namesrc (base artist a n src : String)
    (hp : jsonParse a = some (Json.obj [("name", Json.str n), ("src", Json.str src)]))
    (hn : n ≠ "") (hs : src ≠ "") :
    trackFromJsonStr base artist a = some (mkTrack base artist n (Json.str src)) := by
  have hsrc : (Json.obj [("name", Json.str n), ("src", Json.str src)]).getField "src"
      = some (Json.str src) := rfl
  have hname : (Json.obj [("name", Json.str n), ("src", Json.str src)]).getField "name"
      = some (Json.str n) := rfl
  unfold trackFromJsonStr
  rw [hp]
  simp [hsrc, hname, Json.truthy, hn, hs]

/-- C8: the per-element attribute scan parses each element
independently and an unparsable element is skipped without aborting
the scan; in particular a profile page with three valid attribute
elements and one unparsable one yields exactly the three valid tracks,
in document order, with sanitized names. -/
theorem spec_C8_attr_scan :
    (∀ (base artist bad : String), jsonParse bad = none →
      ∀ pre post, profileMethod1 base artist (pre ++ bad :: post) =
        profileMethod1 base artist (pre ++ post)) ∧
    (∀ (url : String) (page : Page) (cf : Bool)
       (artist base a1 a2 abad a3 n1 s1 n2 s2 n3 s3 : String),
      extractArtistFromUrl url = some artist →
      extractAwsBaseUrl page.html = some base →
      page.playerInfoAttrs = [a1, a2, abad, a3] →
      jsonParse abad = none →
      jsonParse a1 = some (Json.obj [("name", Json.str n1), ("src", Json.str s1)]) →
      jsonParse a2 = some (Json.obj [("name", Json.str n2), ("src", Json.str s2)]) →
      jsonParse a3 = some (Json.obj [("name", Json.str n3), ("src", Json.str s3)]) →
      n1 ≠ "" → s1 ≠ "" → n2 ≠ "" → s2 ≠ "" → n3 ≠ "" → s3 ≠ "" →
      extractProfileBeats url page cf = Except.ok
        { tracks := [mkTrack base artist n1 (Json.str s1),
                     mkTrack base artist n2 (Json.str s2),
                     mkTrack base artist n3 (Json.str s3)],
          artist := artist, createArtistFolder := cf }) := by
  constructor
  · intro base artist bad hbad pre post
    exact profileMethod1_skip base artist bad hbad pre post
  · intro url page cf artist base a1 a2 abad a3 n1 s1 n2 s2 n3 s3
      hart hbase hattrs hbad hp1 hp2 hp3 hn1 hs1 hn2 hs2 hn3 hs3
    have ha1 : a1 ≠ "" := by
      intro he; rw [he, jsonParse_nil] at hp1; exact Option.noConfusion hp1
    have ha2 : a2 ≠ "" := by
      intro he; rw [he, jsonParse_nil] at hp2; exact Option.noConfusion hp2
    have ha3 : a3 ≠ "" := by
      intro he; rw [he, jsonParse_nil] at hp3; exact Option.noConfusion hp3
    have ht1 := trackFromJsonStr_namesrc base artist a1 n1 s1 hp1 hn1 hs1
    have ht2 := trackFromJsonStr_namesrc base artist a2 n2 s2 hp2 hn2 hs2
    have ht3 := trackFromJsonStr_namesrc base artist a3 n3 s3 hp3 hn3 hs3
    have hm1 : profileMethod1 base artist [a1, a2, abad, a3] =
        [mkTrack base artist n1 (Json.str s1),
         mkTrack base artist n2 (Json.str s2),
         mkTrack base artist n3 (Json.str s3)] := by
      by_cases hb : abad = ""
      · simp [profileMethod1, ha1, ha2, ha3, hb, ht1, ht2, ht3]
      · simp [profileMethod1, ha1, ha2, ha3, hb, ht1, ht2, ht3,
              trackFromJsonStr_none hbad]
    simp [extractProfileBeats, hart, hbase, hattrs, hm1]

theorem spec_C8_witness :
    extractProfileBeats "https://traktrain.com/someartist"
      { html := "var AWS_BASE_URL = \x22https://cdn.example.com/\x22;", title := "",
        metaArtist := none, h1 := none, scripts := [], audioSrcs := [],
        playerInfoAttrs := ["\x7b\x22name\x22:\x22One  ?\x22,\x22src\x22:\x22/1.mp3\x22\x7d",
                            "\x7b\x22name\x22:\x22Two\x22,\x22src\x22:\x22/2.mp3\x22\x7d",
                            "\x7bnot json",
                            "\x7b\x22name\x22:\x22Three\x22,\x22src\x22:\x22/3.mp3\x22\x7d"] }
      true = Except.ok
        { tracks := [mkTrack "https://cdn.example.com/" "someartist" "One  ?"
                       (Json.str "/1.mp3"),
                     mkTrack "https://cdn.example.com/" "someartist" "Two"
                       (Json.str "/2.mp3"),
                     mkTrack "https://cdn.example.com/" "someartist" "Three"
                       (Json.str "/3.mp3")],
          artist := "someartist", createArtistFolder := true } :=
  spec_C8_attr_scan.2 "https://traktrain.com/someartist" _ true
    "someartist" "https://cdn.example.com/"
    "\x7b\x22name\x22:\x22One  ?\x22,\x22src\x22:\x22/1.mp3\x22\x7d"
    "\x7b\x22name\x22:\x22Two\x22,\x22src\x22:\x22/2.mp3\x22\x7d"
    "\x7bnot json"
    "\x7b\x22name\x22:\x22Three\x22,\x22src\x22:\x22/3.mp3\x22\x7d"
    "One  ?" "/1.mp3" "Two" "/2.mp3" "Three" "/3.mp3"
    rfl rfl rfl rfl rfl rfl rfl (by decide) (by decide) (by decide) (by decide)
    (by decide) (by decide)

theorem trackFromJsonStr_shape (base artist a : String) :
    trackFromJsonStr base artist a = none ∨
    ∃ n src, trackFromJsonStr base artist a = some (mkTrack base artist n src) := by
  unfold trackFromJsonStr
  repeat' split
  all_goals try exact Or.inl rfl
  all_goals exact Or.inr ⟨_, _, rfl⟩

theorem profileMethod1_shape (base artist : String) :
    ∀ (attrs : List String) (t : Track), t ∈ profileMethod1 base artist attrs →
      ∃ n src, t = mkTrack base artist n src := by
  intro attrs
  induction attrs with
  | nil => intro t ht; simp [profileMethod1] at ht
  | cons a rest ih =>
    intro t ht
    unfold profileMethod1 at ht
    by_cases ha : a = ""
    · rw [if_pos ha] at ht; exact ih t ht
    · rw [if_neg ha] at ht
      rcases trackFromJsonStr_shape base artist a with hsh | ⟨n, src, hsh⟩
      · rw [hsh] at ht; exact ih t ht
      · rw [hsh] at ht
        rcases List.mem_cons.mp ht with h1 | h1
        · exact ⟨n, src, h1⟩
        · exact ih t h1

theorem tracksFromCaptures_shape (base artist : String) :
    ∀ (caps : List String) (t : Track), t ∈ tracksFromCaptures base artist caps →
      ∃ n src, t = mkTrack base artist n src := by
  intro caps
  induction caps with
  | nil => intro t ht; simp [tracksFromCaptures] at ht
  | cons a rest ih =>
    intro t ht
    unfold tracksFromCaptures at ht
    rcases trackFromJsonStr_shape base artist a with hsh | ⟨n, src, hsh⟩
    · rw [hsh] at ht; exact ih t ht
    · rw [hsh] at ht
      rcases List.mem_cons.mp ht with h1 | h1
      · exact ⟨n, src, h1⟩
      · exact ih t h1

theorem profileMethod3_shape (html base artist : String) (t : Track)
    (ht : t ∈ profileMethod3 html base artist) :
    ∃ n src, t = mkTrack base artist n src :=
  tracksFromCaptures_shape base artist _ t ht

theorem pushLoop_shape (base artist : String) :
    ∀ (arr : List Json) (t : Track), t ∈ (pushLoop base artist arr).1 →
      ∃ n src, t = mkTrack base artist n src := by
  intro arr
  induction arr with
  | nil => intro t ht; simp [pushLoop] at ht
  | cons j rest ih =>
    intro t ht
    unfold pushLoop at ht
    repeat' split at ht
    all_goals try simp only [] at ht
    all_goals first
      | exact absurd ht (List.not_mem_nil t)
      | exact ih t ht
      | (rcases List.mem_cons.mp ht with h1 | h1
         · exact ⟨_, _, h1⟩
         · exact ih t h1)

theorem method2Loop_shape (html base artist : String) :
    ∀ (ps : List (String → Option String)) (acc : List Track),
      (∀ t ∈ acc, ∃ n src, t = mkTrack base artist n src) →
      ∀ t ∈ method2Loop html base artist ps acc,
        ∃ n src, t = mkTrack base artist n src := by
  intro ps
  induction ps with
  | nil =>
    intro acc hacc t ht
    exact hacc t (by simpa [method2Loop] using ht)
  | cons p rest ih =>
    intro acc hacc t ht
    unfold method2Loop at ht
    repeat' split at ht
    all_goals try exact ih acc hacc t ht
    simp only [] at ht
    split at ht
    · rcases List.mem_append.mp ht with h1 | h1
      · exact hacc t h1
      · exact pushLoop_shape base artist _ t h1
    · refine ih _ ?_ t ht
      intro t2 ht2
      rcases List.mem_append.mp ht2 with h1 | h1
      · exact hacc t2 h1
      · exact pushLoop_shape base artist _ t2 h1

theorem profileMethod2_shape (html base artist : String) (t : Track)
    (ht : t ∈ profileMethod2 html base artist) :
    ∃ n src, t = mkTrack base artist n src :=
  method2Loop_shape html base artist jsTrackPatterns [] (by simp) t ht

/-- C5 amended: every successful extraction returns at least one
track, and every returned track URL is the extracted base content URL
concatenated with a source string; the URL is therefore a valid
absolute URL only when the extracted base makes it one, which plain
concatenation does not itself guarantee. -/
theorem spec_C5_amended :
    (∀ (url : String) (page : Page) (cf : Bool) (d : ExtractData),
      extractProfileBeats url page cf = Except.ok d →
      1 ≤ d.tracks.length ∧
      ∃ base, extractAwsBaseUrl page.html = some base ∧
        ∀ t ∈ d.tracks, ∃ s, t.url = base ++ s) ∧
    (∀ (url : String) (redirect : String → Option String) (page : Page)
       (cf : Bool) (d : ExtractData),
      extractSingleBeat url redirect page cf = Except.ok d →
      1 ≤ d.tracks.length ∧
      ∃ base, extractAwsBaseUrl page.html = some base ∧
        ∀ t ∈ d.tracks, ∃ s, t.url = base ++ s) := by
  constructor
  · intro url page cf d h
    unfold extractProfileBeats at h
    cases hart : extractArtistFromUrl url with
    | none => rw [hart] at h; exact Except.noConfusion h
    | some artist =>
      rw [hart] at h
      cases hbase : extractAwsBaseUrl page.html with
      | none => rw [hbase] at h; exact Except.noConfusion h
      | some base =>
        rw [hbase] at h
        simp only [] at h
        by_cases h1 : (profileMethod1 base artist page.playerInfoAttrs).length = 0
        · simp only [if_pos h1] at h
          by_cases h2 : (profileMethod2 page.html base artist).length = 0
          · simp only [if_pos h2] at h
            by_cases h3 : (profileMethod3 page.html base artist).length = 0
            · simp only [if_pos h3] at h; exact Except.noConfusion h
            · simp only [if_neg h3] at h
              injection h with h2d
              refine ⟨?_, base, rfl, ?_⟩
              · rw [← h2d]; exact Nat.one_le_iff_ne_zero.mpr h3
              · intro t ht
                rw [← h2d] at ht
                obtain ⟨n, src, rfl⟩ := profileMethod3_shape page.html base artist t ht
                exact ⟨jsToString src, rfl⟩
          · simp only [if_neg h2] at h
            injection h with h2d
            refine ⟨?_, base, rfl, ?_⟩
            · rw [← h2d]; exact Nat.one_le_iff_ne_zero.mpr h2
            · intro t ht
              rw [← h2d] at ht
              obtain ⟨n, src, rfl⟩ := profileMethod2_shape page.html base artist t ht
              exact ⟨jsToString src, rfl⟩
        · simp only [if_neg h1] at h
          injection h with h2d
          refine ⟨?_, base, rfl, ?_⟩
          · rw [← h2d]; exact Nat.one_le_iff_ne_zero.mpr h1
          · intro t ht
            rw [← h2d] at ht
            obtain ⟨n, src, rfl⟩ := profileMethod1_shape base artist _ t ht
            exact ⟨jsToString src, rfl⟩
  · intro url redirect page cf d h
    unfold extractSingleBeat at h
    split at h
    · exact Except.noConfusion h
    · simp only [] at h
      cases hbase : extractAwsBaseUrl page.html with
      | none => rw [hbase] at h; exact Except.noConfusion h
      | some base =>
        rw [hbase] at h
        simp only [] at h
        repeat' split at h
        all_goals try exact Except.noConfusion h
        all_goals injection h with h2d
        all_goals refine ⟨?_, base, rfl, ?_⟩
        all_goals rw [← h2d]
        all_goals simp

theorem spec_C5_witness :
    1 ≤ ({ tracks := [{ name := "A", url := "x/a.mp3", artist := "someartist" }],
           artist := "someartist",
           createArtistFolder := false } : ExtractData).tracks.length ∧
    ∃ base, extractAwsBaseUrl
        ({ html := "var AWS_BASE_URL = \x22x\x22;", title := "", metaArtist := none,
           h1 := none, scripts := [], audioSrcs := [],
           playerInfoAttrs := ["\x7b\x22name\x22:\x22A\x22,\x22src\x22:\x22/a.mp3\x22\x7d"] } : Page).html
        = some base ∧
      ∀ t ∈ ({ tracks := [{ name := "A", url := "x/a.mp3", artist := "someartist" }],
               artist := "someartist",
               createArtistFolder := false } : ExtractData).tracks,
        ∃ s, t.url = base ++ s :=
  spec_C5_amended.1 "https://traktrain.com/someartist"
    { html := "var AWS_BASE_URL = \x22x\x22;", title := "", metaArtist := none,
      h1 := none, scripts := [], audioSrcs := [],
      playerInfoAttrs := ["\x7b\x22name\x22:\x22A\x22,\x22src\x22:\x22/a.mp3\x22\x7d"] }
    false
    { tracks := [{ name := "A", url := "x/a.mp3", artist := "someartist" }],
      artist := "someartist", createArtistFolder := false }
    rfl

/-- C9 amended: the global-state scan applies its patterns in order;
on a matching pattern it parses the captured JSON and probes the
parsed value itself (if an array), then the tracks, beats and
user.tracks fields, taking the first present truthy candidate rather
than the first non-empty one, so a present empty tracks array is
chosen even when beats is non-empty; and a pattern whose candidate
yields no accepted tracks does not stop the scan, which proceeds to
the next pattern. -/
theorem spec_C9_amended :
    (∀ (fs : List (String × Json)) (t : Json),
      lastFieldLookup "tracks" fs = some t → t.truthy = true →
      chooseCandidate (Json.obj fs) = iterCandidate t) ∧
    (∀ (fs : List (String × Json)),
      lastFieldLookup "tracks" fs = some (Json.arr []) →
      chooseCandidate (Json.obj fs) = Except.ok []) ∧
    (∀ (l : List Json), chooseCandidate (Json.arr l) = Except.ok l) ∧
    (∀ (html base artist : String) (p : String → Option String)
       (ps : List (String → Option String)) (cap : String) (data : Json)
       (arr2 : List Json),
      p html = some cap → jsonParse cap = some data →
      chooseCandidate data = Except.ok arr2 →
      pushLoop base artist arr2 = ([], false) →
      method2Loop html base artist (p :: ps) [] =
        method2Loop html base artist ps []) := by
  refine ⟨?_, ?_, ?_, ?_⟩
  · intro fs t h ht
    show chooseTracksField (Json.obj fs) = iterCandidate t
    unfold chooseTracksField
    show (match lastFieldLookup "tracks" fs with
          | some t2 => if t2.truthy then iterCandidate t2
                       else chooseBeats (Json.obj fs)
          | none => chooseBeats (Json.obj fs)) = iterCandidate t
    rw [h]
    simp [ht]
  · intro fs h
    show chooseTracksField (Json.obj fs) = Except.ok []
    unfold chooseTracksField
    show (match lastFieldLookup "tracks" fs with
          | some t2 => if t2.truthy then iterCandidate t2
                       else chooseBeats (Json.obj fs)
          | none => chooseBeats (Json.obj fs)) = Except.ok []
    rw [h]
    rfl
  · intro l; rfl
  · intro html base artist p ps cap data arr2 hp hparse hchoose hpush
    conv_lhs => rw [method2Loop]
    rw [hp]
    simp [hparse, hchoose, hpush]

theorem spec_C9_witness :
    chooseCandidate (Json.obj [("tracks", Json.arr []),
        ("beats", Json.arr [Json.obj [("name", Json.str "B"),
                                      ("src", Json.str "/b.mp3")]])])
      = Except.ok [] :=
  spec_C9_amended.2.1
    [("tracks", Json.arr []),
     ("beats", Json.arr [Json.obj [("name", Json.str "B"),
                                   ("src", Json.str "/b.mp3")]])]
    rfl

end Traktrain
